import Mathlib

/-!
# Verification of the stock-analysis indicator pipeline (`src/app.py`)

Shallow embedding of the computation pipeline of `app.py`:
returns (`pct_change`), simple moving averages (`rolling(w).mean()`),
RSI(14), Bollinger Bands(20, 2), the risk metrics (annualised volatility
and Sharpe-like ratio), the comparison normalisation, and the structure of
the `analyze` / `compare` request handlers.

Modelling conventions:
* Prices and rational-valued computations use `ℚ`; the computations whose
  float semantics pass through IEEE special values (the RSI pipeline,
  where pandas produces `NaN` / `inf`) use the four-point extension
  `PFloat` of `ℚ` with IEEE-754-style arithmetic rules.
* The standard-deviation based computations (volatility, Sharpe ratio,
  Bollinger bands) use `ℝ`, since they involve square roots; pandas'
  `std()` (with its default `ddof = 1`) of a series with fewer than two
  elements is `NaN`, modelled by `Option ℝ` with `none` for `NaN`.
* A pandas rolling window that does not yet have `w` valid observations
  yields `NaN`; for the `Option`-valued series this is `none`, for the
  `PFloat`-valued RSI pipeline it is `PFloat.nan`.
* The data-fetch collaborator (`yfinance`) is external: its outcome is a
  parameter (`FetchOutcome` / `CompareFetch`), either the raw bar list or
  a raised exception, exactly the two behaviours `app.py` distinguishes.
-/

namespace StockApp

/-- IEEE-754-style scalar: a rational number, `+inf`, `-inf`, or `NaN`.
Used to model the float series of the RSI pipeline, where pandas produces
`NaN` (insufficient window, `0/0`) and `inf` (division by zero). Signed
zeros are not distinguished; the pipeline only ever divides by zeros that
arise as `+0.0` in the program. -/
inductive PFloat where
  | num (x : ℚ)
  | inf
  | ninf
  | nan
deriving DecidableEq

/-- IEEE negation. -/
def PFloat.neg : PFloat → PFloat
  | .num a => .num (-a)
  | .inf => .ninf
  | .ninf => .inf
  | .nan => .nan

/-- IEEE addition (`inf + -inf = NaN`, `NaN` absorbs). -/
def PFloat.add : PFloat → PFloat → PFloat
  | .nan, _ => .nan
  | _, .nan => .nan
  | .num a, .num b => .num (a + b)
  | .num _, .inf => .inf
  | .num _, .ninf => .ninf
  | .inf, .num _ => .inf
  | .ninf, .num _ => .ninf
  | .inf, .inf => .inf
  | .ninf, .ninf => .ninf
  | .inf, .ninf => .nan
  | .ninf, .inf => .nan

/-- IEEE subtraction, as addition of the negation. -/
def PFloat.sub (a b : PFloat) : PFloat := PFloat.add a (PFloat.neg b)

/-- IEEE division. Zeros are treated as `+0.0` (the only zeros occurring in
the modelled pipeline): `a / 0 = ±inf` for `a ≠ 0`, and `0 / 0 = NaN`. -/
def PFloat.div : PFloat → PFloat → PFloat
  | .nan, _ => .nan
  | _, .nan => .nan
  | .num a, .num b =>
      if b = 0 then (if a = 0 then .nan else if 0 < a then .inf else .ninf)
      else .num (a / b)
  | .num _, .inf => .num 0
  | .num _, .ninf => .num 0
  | .inf, .num b => if 0 ≤ b then .inf else .ninf
  | .ninf, .num b => if 0 ≤ b then .ninf else .inf
  | .inf, .inf => .nan
  | .inf, .ninf => .nan
  | .ninf, .inf => .nan
  | .ninf, .ninf => .nan

/-- `Series.clip(lower=lo)`: values below `lo` are raised to `lo`. -/
def PFloat.clipLower (lo : ℚ) : PFloat → PFloat
  | .num a => .num (max a lo)
  | .inf => .inf
  | .ninf => .num lo
  | .nan => .nan

/-- `Series.clip(upper=hi)`: values above `hi` are lowered to `hi`. -/
def PFloat.clipUpper (hi : ℚ) : PFloat → PFloat
  | .num a => .num (min a hi)
  | .inf => .num hi
  | .ninf => .ninf
  | .nan => .nan

/-- Whether a `PFloat` is an ordinary number (not `NaN` / `±inf`). -/
def PFloat.isNum : PFloat → Bool
  | .num _ => true
  | _ => false

/-- The rational value of a `PFloat`, when it is an ordinary number. -/
def PFloat.toQ : PFloat → Option ℚ
  | .num x => some x
  | _ => none

/-- Arithmetic mean of a list, `Series.mean()`: sum divided by length
(`0 / 0 = 0` junk value on the empty list, which the program never takes a
mean of). -/
def mean {α : Type} [DivisionRing α] (xs : List α) : α :=
  xs.sum / (xs.length : α)

/-- Python's `round` on exact values: round half to even (banker's
rounding), which is the IEEE-754 default used by CPython. -/
def roundHalfEven {α : Type} [LinearOrderedField α] [FloorRing α] (x : α) : ℤ :=
  if Int.fract x < 1 / 2 then ⌊x⌋
  else if (1 / 2 : α) < Int.fract x then ⌊x⌋ + 1
  else if 2 ∣ ⌊x⌋ then ⌊x⌋ else ⌊x⌋ + 1

/-- Python's `round(x, ndigits)` idealised over exact arithmetic. -/
def pyRound {α : Type} [LinearOrderedField α] [FloorRing α] (ndigits : ℕ) (x : α) : α :=
  (roundHalfEven (x * 10 ^ ndigits) : α) / 10 ^ ndigits

/-- Python's `int(x)`: truncation toward zero. -/
def pyInt {α : Type} [LinearOrderedField α] [FloorRing α] (x : α) : ℤ :=
  if 0 ≤ x then ⌊x⌋ else -⌊-x⌋

/-- Python's `round(x, nd)` applied to a float that may be `NaN` or
`±inf` (those are returned unchanged). -/
def PFloat.roundTo (ndigits : ℕ) : PFloat → PFloat
  | .num x => .num (pyRound ndigits x)
  | v => v

/-- One OHLCV bar, a row of the fetched `DataFrame` (line 16). Volume is
kept rational, as pandas stores it as a float column. -/
structure Bar where
  Open : ℚ
  High : ℚ
  Low : ℚ
  Close : ℚ
  Volume : ℚ
deriving DecidableEq

/-- Line 30, `hist["Close"].pct_change()` followed by `.dropna()`
(line 31): `return[i] = close[i] / close[i-1] - 1` for `i ≥ 1`, the
undefined entry at index 0 dropped. Faithful to the float computation for
positive closes (the data model guarantees positive prices; a zero close
would make the float `pct_change` produce `±inf` or `NaN` instead). -/
def pct_change (closes : List ℚ) : List ℚ :=
  List.zipWith (fun cur prev => cur / prev - 1) closes.tail closes

/-- Line 24, `float(hist["Close"].iloc[-1])` (the program only evaluates
this on a non-empty history, so the default is never used). -/
def current_price (closes : List ℚ) : ℚ := closes.getLastD 0

/-- Line 25: `float(hist["Close"].iloc[-2]) if len(hist) > 1 else
current_price`. -/
def prev_price (closes : List ℚ) : ℚ :=
  if 1 < closes.length then closes.getD (closes.length - 2) 0 else current_price closes

/-- Line 26: `price_change = current_price - prev_price`. -/
def price_change (closes : List ℚ) : ℚ := current_price closes - prev_price closes

/-- Line 27: `(price_change / prev_price) * 100 if prev_price else 0` —
Python float truthiness: exactly `0.0` is falsy. -/
def price_change_pct (closes : List ℚ) : ℚ :=
  if prev_price closes ≠ 0 then price_change closes / prev_price closes * 100 else 0

/-- `Series.rolling(w).f()`: at index `i` the reduction `f` of the window
`xs[i-w+1 .. i]`; `none` ("not yet available") while fewer than `w`
observations exist (pandas' default `min_periods = w` yields `NaN` there,
rendered as the absent marker of the derived sequence). -/
def rolling {α β : Type} (w : ℕ) (f : List α → β) (xs : List α) : List (Option β) :=
  (List.range xs.length).map fun i =>
    if w ≤ i + 1 then some (f ((xs.take (i + 1)).drop (i + 1 - w))) else none

/-- Lines 38-39, `hist["Close"].rolling(w).mean()`: the simple moving
average sequence; instantiated with `w = 50` and `w = 200`. -/
def MA (w : ℕ) (closes : List ℚ) : List (Option ℚ) :=
  rolling w mean closes

/-- Line 38, `hist["MA50"]`. -/
def MA50 (closes : List ℚ) : List (Option ℚ) := MA 50 closes

/-- Line 39, `hist["MA200"]`. -/
def MA200 (closes : List ℚ) : List (Option ℚ) := MA 200 closes

/-- Line 42, `hist["Close"].diff()`: `NaN` at index 0, then successive
differences, as a float series. -/
def diffP (closes : List ℚ) : List PFloat :=
  match closes with
  | [] => []
  | _ :: _ => .nan :: List.zipWith (fun cur prev => .num (cur - prev)) closes.tail closes

/-- `rolling(w).mean()` on a float series: `NaN` unless the window both
has `w` slots and contains no `NaN` (pandas' default `min_periods = w`
counts valid observations); otherwise the mean of the window. `±inf`
never occurs in the inputs this pipeline feeds it. -/
def rollingMeanP (w : ℕ) (xs : List PFloat) : List PFloat :=
  (List.range xs.length).map fun i =>
    if w ≤ i + 1 then
      if ((xs.take (i + 1)).drop (i + 1 - w)).all PFloat.isNum then
        .num (((((xs.take (i + 1)).drop (i + 1 - w)).filterMap PFloat.toQ).sum) / (w : ℚ))
      else .nan
    else .nan

/-- Line 43, `delta.clip(lower=0).rolling(14).mean()`. -/
def gainSeries (closes : List ℚ) : List PFloat :=
  rollingMeanP 14 ((diffP closes).map (PFloat.clipLower 0))

/-- Line 44, `(-delta.clip(upper=0)).rolling(14).mean()`. -/
def lossSeries (closes : List ℚ) : List PFloat :=
  rollingMeanP 14 (((diffP closes).map (PFloat.clipUpper 0)).map PFloat.neg)

/-- Line 45, `rs = gain / loss` (elementwise IEEE division). -/
def rs_series (closes : List ℚ) : List PFloat :=
  List.zipWith PFloat.div (gainSeries closes) (lossSeries closes)

/-- Line 46, `100 - (100 / (1 + rs))`, the full RSI(14) sequence (the
program reads its last element, `.iloc[-1]`, for the snapshot, and the
whole sequence for charting). -/
def rsi_series (closes : List ℚ) : List PFloat :=
  (rs_series closes).map fun rs =>
    PFloat.sub (.num 100) (PFloat.div (.num 100) (PFloat.add (.num 1) rs))

/-- Spec-side predicate (claim C3 as stated): the RSI value is an
ordinary number lying in `[0, 100]`. -/
def rsiInRange : PFloat → Bool
  | .num x => decide (0 ≤ x) && decide (x ≤ 100)
  | _ => false

/-- Spec-side predicate (claim C3 amended): the RSI value is either an
ordinary number lying in `[0, 100]`, or `NaN` (the flat-window case);
never `±inf` and never an out-of-range number. -/
def rsiOK : PFloat → Bool
  | .num x => decide (0 ≤ x) && decide (x ≤ 100)
  | .nan => true
  | _ => false

/-- Line 143, `(hist["Close"] / hist["Close"].iloc[0] - 1) * 100`
(the program only evaluates this on a non-empty history). -/
def norm (closes : List ℚ) : List ℚ :=
  closes.map fun c => (c / closes.headD 0 - 1) * 100

noncomputable section

/-- Population-biased-corrected ("sample", `ddof = 1`) variance, the
convention of pandas' `Series.std()` and `rolling.std()`:
`Σ (x - mean)² / (n - 1)` (a junk value for `n ≤ 1`, where the program's
`std()` is `NaN`; `stdDev` guards that case). -/
def sampleVar (xs : List ℝ) : ℝ :=
  ((xs.map fun x => (x - mean xs) ^ 2).sum) / ((xs.length : ℝ) - 1)

/-- `Series.std()` (`ddof = 1`): `NaN` (modelled `none`) for fewer than
two elements, else the square root of the sample variance. -/
def stdDev (xs : List ℝ) : Option ℝ :=
  if xs.length ≤ 1 then none else some (Real.sqrt (sampleVar xs))

/-- `rolling(20).std()` applied to one window (always of length 20 where
defined, so the `NaN` guard of the scalar `std()` never fires there). -/
def sampleStd (xs : List ℝ) : ℝ := Real.sqrt (sampleVar xs)

/-- Line 34, `float(returns.std() * np.sqrt(252) * 100)`: annualised
volatility in percent. No guard in the source: when `std()` is `NaN`
(fewer than two returns) the result is `NaN` (`none`). -/
def volatility (returns : List ℝ) : Option ℝ :=
  (stdDev returns).map fun s => s * Real.sqrt 252 * 100

/-- Line 35, `float((returns.mean() * 252) / (returns.std() * np.sqrt(252)))
if returns.std() > 0 else 0`: the Sharpe-like ratio. A `NaN` standard
deviation fails the `> 0` comparison, so the guard also catches it. -/
def sharpe (returns : List ℝ) : ℝ :=
  match stdDev returns with
  | some s => if 0 < s then (mean returns * 252) / (s * Real.sqrt 252) else 0
  | none => 0

/-- Line 49, `hist["Close"].rolling(20).mean()`. -/
def BB_Mid (closes : List ℝ) : List (Option ℝ) := rolling 20 mean closes

/-- Line 50, `hist["Close"].rolling(20).std()`. -/
def BB_Std (closes : List ℝ) : List (Option ℝ) := rolling 20 sampleStd closes

/-- Line 51, `hist["BB_Mid"] + 2 * hist["BB_Std"]` (elementwise, `NaN`
propagating). -/
def BB_Upper (closes : List ℝ) : List (Option ℝ) :=
  List.zipWith (fun m s => m.bind fun a => s.map fun b => a + 2 * b)
    (BB_Mid closes) (BB_Std closes)

/-- Line 52, `hist["BB_Mid"] - 2 * hist["BB_Std"]` (elementwise, `NaN`
propagating). -/
def BB_Lower (closes : List ℝ) : List (Option ℝ) :=
  List.zipWith (fun m s => m.bind fun a => s.map fun b => a - 2 * b)
    (BB_Mid closes) (BB_Std closes)

/-- The computed entries of the dict returned by `fetch_stock_data`
(lines 108-132). The metadata fields taken verbatim from the external
`stock.info` mapping (name, sector, valuation ratios, …) and the chart
JSON blobs are external collaborators' data, not computations of the
pipeline, and are left out of the model. -/
structure Snapshot where
  ticker : String
  current_price : ℚ
  price_change : ℚ
  price_change_pct : ℚ
  w52_high : ℚ
  w52_low : ℚ
  volatility : Option ℝ
  sharpe : ℝ
  rsi : PFloat
  volume : ℤ
  avg_volume : ℤ

/-- Lines 13-132, `fetch_stock_data`, with the already-fetched bar rows as
a parameter (the `yf.Ticker(...).history(...)` call is the external
collaborator). Returns `none` when the history is empty (line 18-19),
otherwise the snapshot of computed metrics. -/
def fetch_stock_data (ticker : String) (hist : List Bar) : Option Snapshot :=
  if hist.isEmpty then none
  else
    let closes := hist.map Bar.Close
    let returns := pct_change closes
    let returnsR : List ℝ := returns.map fun q => (q : ℝ)
    some
      { ticker := ticker.toUpper
        current_price := pyRound 2 (current_price closes)
        price_change := pyRound 2 (price_change closes)
        price_change_pct := pyRound 2 (price_change_pct closes)
        w52_high := pyRound 2 (((hist.map Bar.High).max?).getD 0)
        w52_low := pyRound 2 (((hist.map Bar.Low).min?).getD 0)
        volatility := (volatility returnsR).map (pyRound 2)
        sharpe := pyRound 3 (sharpe returnsR)
        rsi := PFloat.roundTo 1 ((rsi_series closes).getLastD .nan)
        volume := pyInt ((hist.map Bar.Volume).getLastD 0)
        avg_volume := pyInt (mean (hist.map Bar.Volume)) }

/-- Outcome of the `yfinance` history call inside `analyze`: either the
raw rows, or a raised exception (network / lookup failure). -/
inductive FetchOutcome where
  | raised
  | bars (hist : List Bar)

/-- The four responses of the `/analyze` route (lines 172-189): 400, 500,
404, and the JSON snapshot. -/
inductive AnalyzeResult where
  | badRequest
  | serverError
  | notFound
  | ok (snap : Snapshot)

/-- HTTP status code of each `/analyze` response. -/
def statusCode : AnalyzeResult → ℕ
  | .badRequest => 400
  | .serverError => 500
  | .notFound => 404
  | .ok _ => 200

/-- Lines 172-189, the `analyze` route: empty ticker → 400; a raised
fetch exception → 500; `fetch_stock_data` returning `None` (empty
history) → 404; otherwise the snapshot. -/
def analyze (ticker : String) (fetched : FetchOutcome) : AnalyzeResult :=
  if ticker = "" then .badRequest
  else
    match fetched with
    | .raised => .serverError
    | .bars hist =>
        match fetch_stock_data ticker hist with
        | none => .notFound
        | some s => .ok s

end

/-- Outcome of the per-ticker `yfinance` history call inside
`compare_stocks`: the close-price rows, or a raised exception. -/
inductive CompareFetch where
  | raised
  | bars (closes : List ℚ)
deriving DecidableEq

/-- Spec-side helper: the close series of a fetch that succeeded with at
least one bar, `none` when the fetch raised or returned no bars. -/
def succBars : CompareFetch → Option (List ℚ)
  | .bars (c :: cs) => some (c :: cs)
  | _ => none

/-- Lines 135-146, the loop of `compare_stocks`: a raised fetch
(`except: continue`) and an empty history (`if hist.empty: continue`) are
skipped silently; every other ticker contributes its normalised series
(trace name `ticker.upper()`). -/
def compare_stocks : List (String × CompareFetch) → List (String × List ℚ)
  | [] => []
  | (_, .raised) :: rest => compare_stocks rest
  | (_, .bars []) :: rest => compare_stocks rest
  | (t, .bars (c :: cs)) :: rest => (t.toUpper, norm (c :: cs)) :: compare_stocks rest

/-! ## General lemmas about the embedded combinators -/

/-- Pointwise description of `List.zipWith` through `getElem?`. -/
theorem getElem?_zipWith_eq {α β γ : Type} (f : α → β → γ) :
    ∀ (as : List α) (bs : List β) (i : ℕ) (a : α) (b : β),
      as[i]? = some a → bs[i]? = some b → (List.zipWith f as bs)[i]? = some (f a b)
  | [], _, _, _, _, ha, _ => by simp at ha
  | _ :: _, [], _, _, _, _, hb => by simp at hb
  | x :: as, y :: bs, 0, a, b, ha, hb => by
      simp only [List.getElem?_cons_zero, Option.some.injEq] at ha hb
      simp [List.zipWith_cons_cons, ha, hb]
  | x :: as, y :: bs, i + 1, a, b, ha, hb => by
      simp only [List.getElem?_cons_succ] at ha hb
      simpa [List.zipWith_cons_cons] using getElem?_zipWith_eq f as bs i a b ha hb

/-- Elements produced by `List.zipWith` satisfy any property the combining
function always establishes. -/
theorem forall_mem_zipWith {α β γ : Type} {P : γ → Prop} (f : α → β → γ)
    (h : ∀ a b, P (f a b)) :
    ∀ (as : List α) (bs : List β) (x : γ), x ∈ List.zipWith f as bs → P x
  | [], _, x, hx => by simp at hx
  | _ :: _, [], x, hx => by simp at hx
  | a :: as, b :: bs, x, hx => by
      rw [List.zipWith_cons_cons] at hx
      rcases List.mem_cons.mp hx with h1 | h2
      · exact h1 ▸ h a b
      · exact forall_mem_zipWith f h as bs x h2

/-- A rolling sequence is aligned with its source: same length. -/
theorem rolling_length {α β : Type} (w : ℕ) (f : List α → β) (xs : List α) :
    (rolling w f xs).length = xs.length := by
  simp [rolling]

/-- Value of a rolling reduction at an index with a full window. -/
theorem rolling_getElem?_of_le {α β : Type} (w : ℕ) (f : List α → β) (xs : List α) (i : ℕ)
    (hi : i < xs.length) (hw : w ≤ i + 1) :
    (rolling w f xs)[i]? = some (some (f ((xs.take (i + 1)).drop (i + 1 - w)))) := by
  unfold rolling
  rw [List.getElem?_map, List.getElem?_range hi]
  simp [hw]

/-- A rolling reduction is "not yet available" while the window is short. -/
theorem rolling_getElem?_of_lt {α β : Type} (w : ℕ) (f : List α → β) (xs : List α) (i : ℕ)
    (hi : i < xs.length) (hw : i + 1 < w) :
    (rolling w f xs)[i]? = some none := by
  have hw' : ¬ w ≤ i + 1 := by omega
  unfold rolling
  rw [List.getElem?_map, List.getElem?_range hi]
  simp [hw']

/-- Inversion: a present rolling value forces a full window and fixes the
value. -/
theorem rolling_getElem?_inv {α β : Type} (w : ℕ) (f : List α → β) (xs : List α) (i : ℕ)
    (y : β) (h : (rolling w f xs)[i]? = some (some y)) :
    i < xs.length ∧ w ≤ i + 1 ∧ y = f ((xs.take (i + 1)).drop (i + 1 - w)) := by
  by_cases hi : i < xs.length
  · unfold rolling at h
    rw [List.getElem?_map, List.getElem?_range hi] at h
    by_cases hw : w ≤ i + 1
    · refine ⟨hi, hw, ?_⟩
      simp only [hw, if_true, Option.map_some', Option.some.injEq] at h
      exact h.symm
    · simp [hw] at h
  · have hnone : (rolling w f xs)[i]? = none := by
      apply List.getElem?_eq_none
      rw [rolling_length]
      omega
    rw [hnone] at h
    cases h

/-- A full window written with `take`-then-`drop` equals the
`drop`-then-`take` slice `xs[i-w+1 .. i]`. -/
theorem window_eq {α : Type} (w i : ℕ) (xs : List α) (hw : w ≤ i + 1) :
    (xs.take (i + 1)).drop (i + 1 - w) = (xs.drop (i + 1 - w)).take w := by
  rw [List.drop_take]
  congr 1
  omega

/-- A full window has exactly `w` elements. -/
theorem window_length {α : Type} (w i : ℕ) (xs : List α) (hw : w ≤ i + 1)
    (hi : i < xs.length) :
    ((xs.drop (i + 1 - w)).take w).length = w := by
  rw [List.length_take, List.length_drop]
  omega

/-- Python's `round` fixes `0`. -/
theorem pyRound_zero {α : Type} [LinearOrderedField α] [FloorRing α] (nd : ℕ) :
    pyRound nd (0 : α) = 0 := by
  norm_num [pyRound, roundHalfEven, Int.fract_zero]

/-! ## Claim theorems -/

/-- C4: the simple moving average sequence is aligned with the close
series; at every index `i ≥ w−1` its value is the arithmetic mean (sum
divided by the window size `w`, the window having exactly `w` elements) of
`closes[i−w+1..i]`, and at every index `i < w−1` it is the explicit
"not yet available" marker — never `0` and never a partial-window
average. The program instantiates `w = 50` and `w = 200`. -/
theorem C4_sma_window (closes : List ℚ) (w i : ℕ) (hi : i < closes.length) :
    (MA w closes).length = closes.length ∧
    (w ≤ i + 1 →
      (MA w closes)[i]? = some (some (mean ((closes.drop (i + 1 - w)).take w))) ∧
      ((closes.drop (i + 1 - w)).take w).length = w ∧
      mean ((closes.drop (i + 1 - w)).take w) =
        ((closes.drop (i + 1 - w)).take w).sum / (w : ℚ)) ∧
    (i + 1 < w → (MA w closes)[i]? = some none) := by
  refine ⟨rolling_length _ _ _, fun hw => ?_, fun hw => rolling_getElem?_of_lt w mean closes i hi hw⟩
  have hlen := window_length w i closes hw hi
  refine ⟨?_, hlen, ?_⟩
  · rw [MA, rolling_getElem?_of_le w mean closes i hi hw, window_eq w i closes hw]
  · rw [mean, hlen]

/-- Witness for C4 at `w = 50`, `i = 49` on fifty equal closes. -/
theorem C4_sma_window_witness :
    (MA 50 (List.replicate 50 (1 : ℚ)))[49]? =
      some (some (mean (((List.replicate 50 (1 : ℚ)).drop (49 + 1 - 50)).take 50))) :=
  ((C4_sma_window (List.replicate 50 (1 : ℚ)) 50 49 (by simp)).2.1 (by norm_num)).1

/-- C5: for a non-empty close series of length `n` (positive closes, as
the data model guarantees — with a zero close the float `pct_change`
would produce non-finite entries), the derived return series has length
`n − 1`, is empty for `n = 1`, and its entry for source index `i ≥ 1` is
`close[i]/close[i−1] − 1`. -/
theorem C5_returns (closes : List ℚ) (_hne : closes ≠ [])
    (_hpos : ∀ c ∈ closes, 0 < c) :
    (pct_change closes).length = closes.length - 1 ∧
    (closes.length = 1 → pct_change closes = []) ∧
    (∀ i : ℕ, 1 ≤ i → i < closes.length →
      (pct_change closes)[i - 1]? = some (closes.getD i 0 / closes.getD (i - 1) 0 - 1)) := by
  have hlen : (pct_change closes).length = closes.length - 1 := by
    simp only [pct_change, List.length_zipWith, List.length_tail]
    omega
  refine ⟨hlen, fun h1 => ?_, fun i hi1 hi2 => ?_⟩
  · have : (pct_change closes).length = 0 := by omega
    exact List.length_eq_zero.mp this
  · have hi1' : i - 1 < closes.length := by omega
    have h1 : closes[i]? = some (closes.getD i 0) := by
      rw [List.getD_eq_getElem?_getD, List.getElem?_eq_getElem hi2]
      rfl
    have h2 : closes[i - 1]? = some (closes.getD (i - 1) 0) := by
      rw [List.getD_eq_getElem?_getD, List.getElem?_eq_getElem hi1']
      rfl
    have h3 : closes.tail[i - 1]? = some (closes.getD i 0) := by
      rw [← List.drop_one, List.getElem?_drop]
      have he : 1 + (i - 1) = i := by omega
      rw [he]
      exact h1
    exact getElem?_zipWith_eq (fun cur prev => cur / prev - 1) closes.tail closes (i - 1) _ _ h3 h2

/-- Witness for C5 on `[10, 11, 12]`. -/
theorem C5_returns_witness :
    (pct_change [(10 : ℚ), 11, 12]).length = [(10 : ℚ), 11, 12].length - 1 ∧
    (pct_change [(10 : ℚ), 11, 12])[2 - 1]? =
      some ([(10 : ℚ), 11, 12].getD 2 0 / [(10 : ℚ), 11, 12].getD (2 - 1) 0 - 1) :=
  ⟨(C5_returns [10, 11, 12] (by decide) (by decide)).1,
    (C5_returns [10, 11, 12] (by decide) (by decide)).2.2 2 (by decide) (by decide)⟩

/-- C7: comparison normalisation starts every included (non-empty,
positive-close) series at `0`, and rescaling all closes by a positive
factor `a` leaves the normalised sequence unchanged (identical percentage
paths normalise identically). -/
theorem C7_normalization (closes : List ℚ) (hne : closes ≠ [])
    (hpos : ∀ c ∈ closes, 0 < c) (a : ℚ) (ha : 0 < a) :
    (norm closes)[0]? = some 0 ∧ norm (closes.map fun c => a * c) = norm closes := by
  obtain ⟨c0, rest, rfl⟩ := List.exists_cons_of_ne_nil hne
  have hc0 : c0 ≠ 0 := ne_of_gt (hpos c0 (by simp))
  constructor
  · simp [norm, div_self hc0]
  · have hfun : ((fun c => (c / (((c0 :: rest).map fun c => a * c).headD 0) - 1) * 100) ∘
        fun c => a * c) = fun c => (c / ((c0 :: rest).headD 0) - 1) * 100 := by
      funext c
      simp only [Function.comp_apply, List.map_cons, List.headD_cons]
      rw [mul_div_mul_left c c0 (ne_of_gt ha)]
    calc norm ((c0 :: rest).map fun c => a * c)
        = ((c0 :: rest).map fun c => a * c).map
            (fun c => (c / (((c0 :: rest).map fun c => a * c).headD 0) - 1) * 100) := rfl
      _ = (c0 :: rest).map ((fun c => (c / (((c0 :: rest).map fun c => a * c).headD 0) - 1) * 100) ∘
            fun c => a * c) := by rw [List.map_map]
      _ = (c0 :: rest).map fun c => (c / ((c0 :: rest).headD 0) - 1) * 100 := by rw [hfun]
      _ = norm (c0 :: rest) := rfl

/-- Witness for C7: the spec's scenario, closes `[100, 110, 121]` scaled
by `1/2` to `[50, 55, 60.5]`, both normalising to `[0, 10, 21]`. -/
theorem C7_normalization_witness :
    ((norm [(100 : ℚ), 110, 121])[0]? = some 0 ∧
      norm ([(100 : ℚ), 110, 121].map fun c => (1 / 2 : ℚ) * c) = norm [(100 : ℚ), 110, 121]) ∧
    norm [(100 : ℚ), 110, 121] = [0, 10, 21] ∧
    [(100 : ℚ), 110, 121].map (fun c => (1 / 2 : ℚ) * c) = [50, 55, 60.5] :=
  ⟨C7_normalization [100, 110, 121] (by decide) (by decide) (1 / 2) (by norm_num),
    by norm_num [norm], by norm_num⟩

/-- C8: an analyze request whose fetch succeeds with zero bars yields the
404 "not found" outcome, which is distinct from the 500 fetch-failure
outcome, and no snapshot is computed on the empty series
(`fetch_stock_data` short-circuits to `none`). -/
theorem C8_empty_history (t : String) (ht : t ≠ "") :
    analyze t (FetchOutcome.bars []) = AnalyzeResult.notFound ∧
    statusCode (analyze t (FetchOutcome.bars [])) = 404 ∧
    AnalyzeResult.notFound ≠ AnalyzeResult.serverError ∧
    fetch_stock_data t [] = none := by
  have hf : fetch_stock_data t [] = none := by simp [fetch_stock_data]
  have ha : analyze t (FetchOutcome.bars []) = AnalyzeResult.notFound := by
    simp [analyze, ht, hf]
  refine ⟨ha, ?_, fun h => AnalyzeResult.noConfusion h, hf⟩
  rw [ha]
  rfl

/-- Witness for C8 at ticker `"ZZZZ"`. -/
theorem C8_empty_history_witness :
    analyze "ZZZZ" (FetchOutcome.bars []) = AnalyzeResult.notFound ∧
    statusCode (analyze "ZZZZ" (FetchOutcome.bars [])) = 404 ∧
    AnalyzeResult.notFound ≠ AnalyzeResult.serverError ∧
    fetch_stock_data "ZZZZ" [] = none :=
  C8_empty_history "ZZZZ" (by decide)

/-- C9: the comparison silently skips every ticker whose fetch raised or
returned an empty series, keeping exactly the normalised sequences of the
tickers that succeeded (in request order); when every ticker fails the
result is empty rather than an error. -/
theorem C9_compare_skips (fetches : List (String × CompareFetch)) :
    compare_stocks fetches =
      fetches.filterMap (fun p => (succBars p.2).map fun cs => (p.1.toUpper, norm cs)) ∧
    ((∀ p ∈ fetches, succBars p.2 = none) → compare_stocks fetches = []) := by
  have main : ∀ l : List (String × CompareFetch), compare_stocks l =
      l.filterMap (fun p => (succBars p.2).map fun cs => (p.1.toUpper, norm cs)) := by
    intro l
    induction l with
    | nil => rfl
    | cons p rest ih =>
      obtain ⟨t, f⟩ := p
      cases f with
      | raised => simpa [compare_stocks, succBars, List.filterMap_cons] using ih
      | bars cs =>
        cases cs with
        | nil => simpa [compare_stocks, succBars, List.filterMap_cons] using ih
        | cons c cs' => simpa [compare_stocks, succBars, List.filterMap_cons] using ih
  refine ⟨main fetches, fun h => ?_⟩
  rw [main fetches, List.filterMap_eq_nil_iff]
  intro p hp
  rw [h p hp]
  rfl

/-- Witness for C9: one raised fetch and one empty fetch give an empty
comparison set. -/
theorem C9_compare_skips_witness :
    compare_stocks [("aapl", CompareFetch.raised), ("msft", CompareFetch.bars [])] = [] :=
  (C9_compare_skips [("aapl", CompareFetch.raised), ("msft", CompareFetch.bars [])]).2 (by decide)

/-- C10: the snapshot of a single-bar series reports price change and
percentage price change both `0` (the previous price defaults to the
current price), and for any series whose previous price is `0` the
percentage change is computed as `0` rather than a division fault. -/
theorem C10_price_change (t : String) (b : Bar) (closes : List ℚ)
    (h0 : prev_price closes = 0) :
    (fetch_stock_data t [b]).map Snapshot.price_change = some 0 ∧
    (fetch_stock_data t [b]).map Snapshot.price_change_pct = some 0 ∧
    price_change_pct closes = 0 := by
  have hch : price_change [b.Close] = 0 := by
    simp [price_change, prev_price, current_price]
  have hpct1 : price_change_pct [b.Close] = 0 := by
    by_cases h : prev_price [b.Close] = 0
    · simp [price_change_pct, h]
    · simp [price_change_pct, h, hch]
  refine ⟨?_, ?_, ?_⟩
  · simp [fetch_stock_data, hch, pyRound_zero]
  · simp [fetch_stock_data, hpct1, pyRound_zero]
  · simp [price_change_pct, h0]

/-- Witness for C10: a one-bar history, and a two-close series whose
previous close is `0`. -/
theorem C10_price_change_witness :
    (fetch_stock_data "A" [⟨1, 1, 1, 1, 1⟩]).map Snapshot.price_change = some 0 ∧
    (fetch_stock_data "A" [⟨1, 1, 1, 1, 1⟩]).map Snapshot.price_change_pct = some 0 ∧
    price_change_pct [0, 5] = 0 :=
  C10_price_change "A" ⟨1, 1, 1, 1, 1⟩ [0, 5] (by decide)

/-- C1 counterexample: the claim says an empty (≤ 1 element) return
series yields volatility exactly `0`; the program computes
`returns.std() * sqrt(252) * 100` unguarded, and `std()` of such a series
is `NaN` (modelled `none`), so the reported volatility is `NaN`, not `0`. -/
theorem C1_risk_counterexample :
    volatility ([] : List ℝ) = none ∧ volatility ([] : List ℝ) ≠ some 0 := by
  constructor <;> simp [volatility, stdDev]

/-- C1 amended: the Sharpe-like ratio is guarded and is `0` whenever the
return series has at most one element or zero variance; the volatility is
`0` for a zero-variance series of length ≥ 2, but is `NaN` (undefined),
not `0`, when the series has at most one element. -/
theorem C1_risk_amended (rs : List ℝ) (h : rs.length ≤ 1 ∨ sampleVar rs = 0) :
    sharpe rs = 0 ∧
    volatility rs = if rs.length ≤ 1 then none else some 0 := by
  by_cases hl : rs.length ≤ 1
  · constructor
    · simp [sharpe, stdDev, hl]
    · simp [volatility, stdDev, hl]
  · have hv : sampleVar rs = 0 := by
      rcases h with h | h
      · exact absurd h hl
      · exact h
    have hs : stdDev rs = some 0 := by
      simp [stdDev, hl, hv, Real.sqrt_zero]
    constructor
    · simp [sharpe, hs]
    · simp [volatility, hs, hl]

/-- Witness for C1 amended: two zero returns (zero variance). -/
theorem C1_risk_amended_witness :
    sharpe [(0 : ℝ), 0] = 0 ∧
    volatility [(0 : ℝ), 0] = if ([(0 : ℝ), 0]).length ≤ 1 then none else some 0 :=
  C1_risk_amended [0, 0] (Or.inr (by norm_num [sampleVar, mean]))

/-- C6: wherever the Bollinger midline, upper band and lower band are all
defined, `lower ≤ midline ≤ upper`, because the band half-width is
`2 × rolling standard deviation ≥ 0`. -/
theorem C6_bollinger (closes : List ℝ) (i : ℕ) (m u l : ℝ)
    (hm : (BB_Mid closes)[i]? = some (some m))
    (hu : (BB_Upper closes)[i]? = some (some u))
    (hl : (BB_Lower closes)[i]? = some (some l)) :
    l ≤ m ∧ m ≤ u := by
  obtain ⟨hi, hw, hmval⟩ := rolling_getElem?_inv 20 mean closes i m hm
  have hs : (BB_Std closes)[i]? =
      some (some (sampleStd ((closes.take (i + 1)).drop (i + 1 - 20)))) :=
    rolling_getElem?_of_le 20 sampleStd closes i hi hw
  have hstd : (0 : ℝ) ≤ sampleStd ((closes.take (i + 1)).drop (i + 1 - 20)) :=
    Real.sqrt_nonneg _
  have hu2 : (BB_Upper closes)[i]? =
      some ((some m).bind fun a =>
        (some (sampleStd ((closes.take (i + 1)).drop (i + 1 - 20)))).map fun b => a + 2 * b) :=
    getElem?_zipWith_eq _ (BB_Mid closes) (BB_Std closes) i _ _ hm hs
  have hl2 : (BB_Lower closes)[i]? =
      some ((some m).bind fun a =>
        (some (sampleStd ((closes.take (i + 1)).drop (i + 1 - 20)))).map fun b => a - 2 * b) :=
    getElem?_zipWith_eq _ (BB_Mid closes) (BB_Std closes) i _ _ hm hs
  rw [hu] at hu2
  rw [hl] at hl2
  simp only [Option.bind_eq_bind, Option.some_bind, Option.map_some', Option.some.injEq] at hu2 hl2
  constructor <;> linarith

/-- Witness for C6 on twenty equal closes at index 19 (zero-width bands). -/
theorem C6_bollinger_witness : (1 : ℝ) ≤ 1 ∧ (1 : ℝ) ≤ 1 := by
  have hmean : mean (List.replicate 20 (1 : ℝ)) = 1 := by
    norm_num [mean, List.sum_replicate]
  have hwin : ((List.replicate 20 (1 : ℝ)).take (19 + 1)).drop (19 + 1 - 20) =
      List.replicate 20 (1 : ℝ) := by
    simp [List.take_replicate]
  have hstd : sampleStd (List.replicate 20 (1 : ℝ)) = 0 := by
    norm_num [sampleStd, sampleVar, hmean, List.map_replicate, List.sum_replicate,
      Real.sqrt_zero]
  have hm : (BB_Mid (List.replicate 20 (1 : ℝ)))[19]? = some (some 1) := by
    have h := rolling_getElem?_of_le 20 mean (List.replicate 20 (1 : ℝ)) 19
      (by norm_num) (by norm_num)
    rw [hwin, hmean] at h
    exact h
  have hsd : (BB_Std (List.replicate 20 (1 : ℝ)))[19]? = some (some 0) := by
    have h := rolling_getElem?_of_le 20 sampleStd (List.replicate 20 (1 : ℝ)) 19
      (by norm_num) (by norm_num)
    rw [hwin, hstd] at h
    exact h
  have hu : (BB_Upper (List.replicate 20 (1 : ℝ)))[19]? = some (some 1) := by
    have h := getElem?_zipWith_eq (fun m s => Option.bind m fun a => Option.map (fun b => a + 2 * b) s)
      (BB_Mid (List.replicate 20 (1 : ℝ))) (BB_Std (List.replicate 20 (1 : ℝ))) 19 _ _ hm hsd
    simpa using h
  have hlw : (BB_Lower (List.replicate 20 (1 : ℝ)))[19]? = some (some 1) := by
    have h := getElem?_zipWith_eq (fun m s => Option.bind m fun a => Option.map (fun b => a - 2 * b) s)
      (BB_Mid (List.replicate 20 (1 : ℝ))) (BB_Std (List.replicate 20 (1 : ℝ))) 19 _ _ hm hsd
    simpa using h
  exact C6_bollinger (List.replicate 20 (1 : ℝ)) 19 1 1 1 hm hu hlw

/-! ## The RSI pipeline: helper lemmas for C2 and C3 -/

/-- `diff` preserves length. -/
theorem diffP_length (closes : List ℚ) : (diffP closes).length = closes.length := by
  cases closes with
  | nil => rfl
  | cons c cs =>
    simp only [diffP, List.length_cons, List.length_zipWith, List.tail_cons]
    omega

/-- Value of the `NaN`-aware rolling mean at an index with a full window. -/
theorem rollingMeanP_getElem? (w : ℕ) (xs : List PFloat) (i : ℕ)
    (hi : i < xs.length) (hw : w ≤ i + 1) :
    (rollingMeanP w xs)[i]? =
      some (if ((xs.take (i + 1)).drop (i + 1 - w)).all PFloat.isNum then
        PFloat.num (((((xs.take (i + 1)).drop (i + 1 - w)).filterMap PFloat.toQ).sum) / (w : ℚ))
      else PFloat.nan) := by
  unfold rollingMeanP
  rw [List.getElem?_map, List.getElem?_range hi]
  simp [hw]

/-- Core lemma for the gain/loss rolling means: mapping any function `F`
with `F NaN = NaN` and `F` sending numbers to nonnegative numbers over
the diff series, the 14-period rolling mean at an index `i ≥ 14` (a full
window avoiding the undefined first diff) is a nonnegative number. -/
theorem rollingMean14_diff_num (closes : List ℚ) (F : PFloat → PFloat) (i : ℕ)
    (hFnan : F PFloat.nan = PFloat.nan)
    (hFnum : ∀ d : ℚ, ∃ a : ℚ, F (PFloat.num d) = PFloat.num a ∧ 0 ≤ a)
    (h14 : 14 ≤ i) (hn : i < closes.length) :
    ∃ g : ℚ, 0 ≤ g ∧ (rollingMeanP 14 ((diffP closes).map F))[i]? = some (PFloat.num g) := by
  obtain ⟨c, cs, rfl⟩ := List.exists_cons_of_ne_nil
    (show closes ≠ [] by intro h; rw [h] at hn; simp at hn)
  set zs := List.zipWith (fun cur prev => PFloat.num (cur - prev)) (c :: cs).tail (c :: cs) with hzs
  have hdiff : diffP (c :: cs) = PFloat.nan :: zs := rfl
  have hys : (diffP (c :: cs)).map F = PFloat.nan :: zs.map F := by
    rw [hdiff, List.map_cons, hFnan]
  have hyslen : ((diffP (c :: cs)).map F).length = (c :: cs).length := by
    rw [List.length_map, diffP_length]
  have hi' : i < ((diffP (c :: cs)).map F).length := by rw [hyslen]; exact hn
  -- the window at index i only touches the mapped zipWith part
  have hwin : (((diffP (c :: cs)).map F).take (i + 1)).drop (i + 1 - 14) =
      ((zs.map F).take i).drop (i - 14) := by
    rw [hys]
    have h1 : i + 1 = i + 1 := rfl
    rw [List.take_succ_cons]
    have h2 : i + 1 - 14 = (i - 14) + 1 := by omega
    rw [h2, List.drop_succ_cons]
  have hsub : (((zs.map F).take i).drop (i - 14)) ⊆ zs.map F :=
    (List.drop_subset _ _).trans (List.take_subset _ _)
  have helem : ∀ x ∈ zs.map F, ∃ a : ℚ, x = PFloat.num a ∧ 0 ≤ a := by
    intro x hx
    obtain ⟨y, hy, rfl⟩ := List.mem_map.mp hx
    have hnum : ∃ d : ℚ, y = PFloat.num d := by
      refine forall_mem_zipWith (P := fun y => ∃ d : ℚ, y = PFloat.num d)
        (fun cur prev => PFloat.num (cur - prev)) ?_ _ _ y hy
      intro a b
      exact ⟨a - b, rfl⟩
    obtain ⟨d, rfl⟩ := hnum
    obtain ⟨a, ha, ha0⟩ := hFnum d
    exact ⟨a, ha, ha0⟩
  have hall : ((((diffP (c :: cs)).map F).take (i + 1)).drop (i + 1 - 14)).all PFloat.isNum = true := by
    rw [hwin, List.all_eq_true]
    intro x hx
    obtain ⟨a, rfl, _⟩ := helem x (hsub hx)
    rfl
  have hnonneg : 0 ≤ (((((diffP (c :: cs)).map F).take (i + 1)).drop (i + 1 - 14)).filterMap
      PFloat.toQ).sum := by
    apply List.sum_nonneg
    intro q hq
    obtain ⟨x, hx, hxq⟩ := List.mem_filterMap.mp hq
    rw [hwin] at hx
    obtain ⟨a, rfl, ha0⟩ := helem x (hsub hx)
    simp only [PFloat.toQ, Option.some.injEq] at hxq
    rwa [← hxq]
  refine ⟨(((((diffP (c :: cs)).map F).take (i + 1)).drop (i + 1 - 14)).filterMap
      PFloat.toQ).sum / (14 : ℚ), ?_, ?_⟩
  · exact div_nonneg hnonneg (by norm_num)
  · rw [rollingMeanP_getElem? 14 _ i hi' (by omega), hall]
    simp

/-- The gain rolling mean at `i ≥ 14` is a nonnegative number. -/
theorem gainSeries_num (closes : List ℚ) (i : ℕ) (h14 : 14 ≤ i) (hn : i < closes.length) :
    ∃ g : ℚ, 0 ≤ g ∧ (gainSeries closes)[i]? = some (PFloat.num g) := by
  apply rollingMean14_diff_num closes (PFloat.clipLower 0) i rfl ?_ h14 hn
  intro d
  exact ⟨max d 0, rfl, le_max_right d 0⟩

/-- The loss rolling mean at `i ≥ 14` is a nonnegative number. -/
theorem lossSeries_num (closes : List ℚ) (i : ℕ) (h14 : 14 ≤ i) (hn : i < closes.length) :
    ∃ l : ℚ, 0 ≤ l ∧ (lossSeries closes)[i]? = some (PFloat.num l) := by
  have hrw : lossSeries closes =
      rollingMeanP 14 ((diffP closes).map (PFloat.neg ∘ PFloat.clipUpper 0)) := by
    rw [lossSeries, List.map_map]
  rw [hrw]
  apply rollingMean14_diff_num closes (PFloat.neg ∘ PFloat.clipUpper 0) i rfl ?_ h14 hn
  intro d
  refine ⟨-(min d 0), rfl, ?_⟩
  simp [min_le_right d 0]

/-- The RSI entry determined by the gain and loss entries at an index. -/
theorem rsi_series_getElem? (closes : List ℚ) (i : ℕ) (g l : PFloat)
    (hg : (gainSeries closes)[i]? = some g)
    (hl : (lossSeries closes)[i]? = some l) :
    (rsi_series closes)[i]? = some (PFloat.sub (PFloat.num 100)
      (PFloat.div (PFloat.num 100) (PFloat.add (PFloat.num 1) (PFloat.div g l)))) := by
  have hrs : (rs_series closes)[i]? = some (PFloat.div g l) :=
    getElem?_zipWith_eq PFloat.div _ _ i _ _ hg hl
  unfold rsi_series
  rw [List.getElem?_map, hrs]
  rfl


/-- `zipWith` of two replicated lists (the shorter first). -/
theorem zipWith_replicate_le {α β γ : Type} (f : α → β → γ) (a : α) (b : β) (n m : ℕ)
    (h : n ≤ m) :
    List.zipWith f (List.replicate n a) (List.replicate m b) = List.replicate n (f a b) := by
  induction n generalizing m with
  | zero => simp
  | succ k ih =>
    cases m with
    | zero => omega
    | succ m' =>
      simp only [List.replicate_succ, List.zipWith_cons_cons]
      rw [ih m' (by omega)]

/-- `filterMap toQ` on a replicated numeric entry. -/
theorem filterMap_toQ_replicate (n : ℕ) (q : ℚ) :
    (List.replicate n (PFloat.num q)).filterMap PFloat.toQ = List.replicate n q := by
  induction n with
  | zero => rfl
  | succ k ih => simp [List.replicate_succ, List.filterMap_cons, PFloat.toQ, ih]

/-- A replicated numeric entry is all-numeric. -/
theorem all_isNum_replicate (n : ℕ) (q : ℚ) :
    (List.replicate n (PFloat.num q)).all PFloat.isNum = true := by
  rw [List.all_eq_true]
  intro x hx
  rw [List.eq_of_mem_replicate hx]
  rfl

/-- The 14-period rolling mean at index 14 over `NaN` followed by a
number `p` and thirteen copies of a number `q`. -/
theorem rollingMeanP_nan_cons (p q : ℚ) :
    (rollingMeanP 14 (PFloat.nan :: PFloat.num p :: List.replicate 13 (PFloat.num q)))[14]? =
      some (PFloat.num ((p + 13 * q) / 14)) := by
  have hlen : 14 < (PFloat.nan :: PFloat.num p :: List.replicate 13 (PFloat.num q)).length := by
    simp
  rw [rollingMeanP_getElem? 14 _ 14 hlen (by norm_num)]
  have hwin : ((PFloat.nan :: PFloat.num p :: List.replicate 13 (PFloat.num q)).take
      (14 + 1)).drop (14 + 1 - 14) = PFloat.num p :: List.replicate 13 (PFloat.num q) := by
    rw [List.take_of_length_le (by simp)]
    rfl
  rw [hwin]
  have hall : (PFloat.num p :: List.replicate 13 (PFloat.num q)).all PFloat.isNum = true := by
    simp only [List.all_cons, all_isNum_replicate]
    rfl
  rw [hall, if_pos rfl]
  simp only [List.filterMap_cons, PFloat.toQ, filterMap_toQ_replicate, List.sum_cons,
    List.sum_replicate, nsmul_eq_mul, Option.some.injEq, PFloat.num.injEq]
  norm_num

/-- On the flat fifteen-close series, `diff` is `NaN` followed by
fourteen zeros. -/
theorem diffP_flat :
    diffP (List.replicate 15 (10 : ℚ)) = PFloat.nan :: List.replicate 14 (PFloat.num 0) := by
  have h15 : List.replicate 15 (10 : ℚ) = 10 :: List.replicate 14 10 := by
    rw [show (15 : ℕ) = 14 + 1 from rfl, List.replicate_succ]
  calc diffP (List.replicate 15 (10 : ℚ))
      = diffP (10 :: List.replicate 14 10) := by rw [← h15]
    _ = PFloat.nan :: List.zipWith (fun cur prev => PFloat.num (cur - prev))
          (List.replicate 14 (10 : ℚ)) (10 :: List.replicate 14 10) := rfl
    _ = PFloat.nan :: List.zipWith (fun cur prev => PFloat.num (cur - prev))
          (List.replicate 14 (10 : ℚ)) (List.replicate 15 10) := by rw [← h15]
    _ = PFloat.nan :: List.replicate 14 (PFloat.num (10 - 10)) := by
          rw [zipWith_replicate_le _ _ _ 14 15 (by norm_num)]
    _ = PFloat.nan :: List.replicate 14 (PFloat.num 0) := by norm_num

/-- Gain rolling mean of the flat series at index 14 is the number 0. -/
theorem gainSeries_flat :
    (gainSeries (List.replicate 15 (10 : ℚ)))[14]? = some (PFloat.num 0) := by
  have hmap : (diffP (List.replicate 15 (10 : ℚ))).map (PFloat.clipLower 0) =
      PFloat.nan :: PFloat.num 0 :: List.replicate 13 (PFloat.num 0) := by
    rw [diffP_flat]
    simp [List.map_replicate, PFloat.clipLower, max_self, List.replicate_succ]
  rw [gainSeries, hmap, rollingMeanP_nan_cons]
  norm_num

/-- Loss rolling mean of the flat series at index 14 is the number 0. -/
theorem lossSeries_flat :
    (lossSeries (List.replicate 15 (10 : ℚ)))[14]? = some (PFloat.num 0) := by
  have hmap : ((diffP (List.replicate 15 (10 : ℚ))).map (PFloat.clipUpper 0)).map PFloat.neg =
      PFloat.nan :: PFloat.num 0 :: List.replicate 13 (PFloat.num 0) := by
    rw [diffP_flat]
    simp [List.map_replicate, PFloat.clipUpper, PFloat.neg, min_self, List.replicate_succ]
  rw [lossSeries, hmap, rollingMeanP_nan_cons]
  norm_num

/-- The RSI of the flat series at index 14 is `NaN` (`0/0`). -/
theorem rsi_series_flat :
    (rsi_series (List.replicate 15 (10 : ℚ)))[14]? = some PFloat.nan := by
  have h := rsi_series_getElem? (List.replicate 15 (10 : ℚ)) 14 _ _ gainSeries_flat lossSeries_flat
  rw [h]
  norm_num [PFloat.div, PFloat.add, PFloat.sub, PFloat.neg]

/-- On the step series `0 :: replicate 14 1`, `diff` is `NaN`, then `1`,
then thirteen zeros. -/
theorem diffP_step :
    diffP ((0 : ℚ) :: List.replicate 14 1) =
      PFloat.nan :: PFloat.num 1 :: List.replicate 13 (PFloat.num 0) := by
  have h14 : List.replicate 14 (1 : ℚ) = 1 :: List.replicate 13 1 := by
    rw [show (14 : ℕ) = 13 + 1 from rfl, List.replicate_succ]
  calc diffP ((0 : ℚ) :: List.replicate 14 1)
      = PFloat.nan :: List.zipWith (fun cur prev => PFloat.num (cur - prev))
          (List.replicate 14 (1 : ℚ)) ((0 : ℚ) :: List.replicate 14 1) := rfl
    _ = PFloat.nan :: List.zipWith (fun cur prev => PFloat.num (cur - prev))
          (1 :: List.replicate 13 (1 : ℚ)) ((0 : ℚ) :: 1 :: List.replicate 13 1) := by
          rw [← h14]
    _ = PFloat.nan :: PFloat.num (1 - 0) :: List.zipWith (fun cur prev => PFloat.num (cur - prev))
          (List.replicate 13 (1 : ℚ)) (1 :: List.replicate 13 1) := by
          rw [List.zipWith_cons_cons]
    _ = PFloat.nan :: PFloat.num (1 - 0) :: List.zipWith (fun cur prev => PFloat.num (cur - prev))
          (List.replicate 13 (1 : ℚ)) (List.replicate 14 1) := by rw [← h14]
    _ = PFloat.nan :: PFloat.num (1 - 0) :: List.replicate 13 (PFloat.num (1 - 1)) := by
          rw [zipWith_replicate_le _ _ _ 13 14 (by norm_num)]
    _ = PFloat.nan :: PFloat.num 1 :: List.replicate 13 (PFloat.num 0) := by norm_num

/-- Gain rolling mean of the step series at index 14: `1/14`. -/
theorem gainSeries_step :
    (gainSeries ((0 : ℚ) :: List.replicate 14 1))[14]? =
      some (PFloat.num ((1 + 13 * 0) / 14)) := by
  have hmap : (diffP ((0 : ℚ) :: List.replicate 14 1)).map (PFloat.clipLower 0) =
      PFloat.nan :: PFloat.num 1 :: List.replicate 13 (PFloat.num 0) := by
    rw [diffP_step]
    simp only [List.map_cons, List.map_replicate, PFloat.clipLower]
    rw [max_eq_left (by norm_num : (0 : ℚ) ≤ 1), max_self]
  rw [gainSeries, hmap, rollingMeanP_nan_cons]

/-- Loss rolling mean of the step series at index 14: `0`. -/
theorem lossSeries_step :
    (lossSeries ((0 : ℚ) :: List.replicate 14 1))[14]? = some (PFloat.num 0) := by
  have hmap : ((diffP ((0 : ℚ) :: List.replicate 14 1)).map (PFloat.clipUpper 0)).map
      PFloat.neg = PFloat.nan :: PFloat.num 0 :: List.replicate 13 (PFloat.num 0) := by
    rw [diffP_step]
    simp only [List.map_cons, List.map_replicate, PFloat.clipUpper, PFloat.neg]
    rw [min_eq_right (by norm_num : (0 : ℚ) ≤ 1), min_self]
    norm_num
  rw [lossSeries, hmap, rollingMeanP_nan_cons]
  norm_num

/-- C2 counterexample: on the flat series of fifteen equal closes, the
14-period rolling loss mean at index 14 is exactly `0` (all trailing
deltas are zero, hence "gains or zero"), yet the computed RSI there is
`NaN` (`0/0` in `rs = gain/loss`), not `100` — the claim's loss-free
boundary is violated by an arithmetic-fault sentinel. -/
theorem C2_flat_counterexample :
    (lossSeries (List.replicate 15 (10 : ℚ))).getD 14 PFloat.inf = PFloat.num 0 ∧
    (rsi_series (List.replicate 15 (10 : ℚ))).getD 14 PFloat.inf = PFloat.nan ∧
    PFloat.nan ≠ PFloat.num 100 := by
  refine ⟨?_, ?_, fun h => PFloat.noConfusion h⟩
  · rw [List.getD_eq_getElem?_getD, lossSeries_flat]
    rfl
  · rw [List.getD_eq_getElem?_getD, rsi_series_flat]
    rfl

/-- C2 amended: at an index where the rolling loss mean is `0` and the
rolling gain mean is a number `g`, the RSI is exactly `100` whenever
`g ≠ 0` (in the program `g > 0`, since gains are nonnegative), but is
`NaN` when `g = 0` as well (the flat-window case `0/0`). -/
theorem C2_rsi_lossfree_amended (closes : List ℚ) (i : ℕ) (g : ℚ)
    (hg : (gainSeries closes)[i]? = some (PFloat.num g))
    (hl : (lossSeries closes)[i]? = some (PFloat.num 0)) :
    (rsi_series closes)[i]? = some (if g = 0 then PFloat.nan else PFloat.num 100) := by
  have hrsi := rsi_series_getElem? closes i _ _ hg hl
  rw [hrsi]
  rcases lt_trichotomy g 0 with hneg | heq | hpos
  · have h1 : PFloat.div (PFloat.num g) (PFloat.num 0) = PFloat.ninf := by
      simp [PFloat.div, hneg.ne, not_lt.mpr hneg.le]
    rw [h1, if_neg hneg.ne]
    norm_num [PFloat.div, PFloat.add, PFloat.sub, PFloat.neg]
  · subst heq
    norm_num [PFloat.div, PFloat.add, PFloat.sub, PFloat.neg]
  · have h1 : PFloat.div (PFloat.num g) (PFloat.num 0) = PFloat.inf := by
      simp [PFloat.div, hpos.ne', hpos]
    rw [h1, if_neg hpos.ne']
    norm_num [PFloat.div, PFloat.add, PFloat.sub, PFloat.neg]

/-- Witness for C2 amended: the step series (one gain, then flat) has
loss mean `0`, gain mean `1/14`, and RSI exactly `100` at index 14. -/
theorem C2_rsi_lossfree_amended_witness :
    (rsi_series ((0 : ℚ) :: List.replicate 14 1))[14]? = some (PFloat.num 100) := by
  have h := C2_rsi_lossfree_amended ((0 : ℚ) :: List.replicate 14 1) 14 ((1 + 13 * 0) / 14)
    gainSeries_step lossSeries_step
  rw [h, if_neg (by norm_num)]

/-- C3 counterexample: at index 14 of the flat fifteen-close series there
is enough history for both 14-period rolling means (and they are both
defined, cf. `C2_flat_counterexample`), yet the computed RSI value is not
a number in `[0, 100]` — it is `NaN`. -/
theorem C3_flat_counterexample :
    14 ≤ 14 ∧ 14 < (List.replicate 15 (10 : ℚ)).length ∧
    rsiInRange ((rsi_series (List.replicate 15 (10 : ℚ))).getD 14 PFloat.inf) = false := by
  refine ⟨le_refl 14, by simp, ?_⟩
  rw [List.getD_eq_getElem?_getD, rsi_series_flat]
  rfl

/-- C3 amended: at every index with enough history for the 14-period
rolling means (`i ≥ 14`: a full diff window avoiding the undefined first
diff), the computed RSI is either a number in `[0, 100]` or `NaN` (which
occurs exactly on flat windows, cf. the C2 theorems) — never `±inf` and
never an out-of-range number. -/
theorem C3_rsi_range_amended (closes : List ℚ) (i : ℕ) (h14 : 14 ≤ i)
    (hn : i < closes.length) :
    rsiOK ((rsi_series closes).getD i PFloat.inf) = true := by
  obtain ⟨g, hg0, hg⟩ := gainSeries_num closes i h14 hn
  obtain ⟨l, hl0, hl⟩ := lossSeries_num closes i h14 hn
  have hrsi := rsi_series_getElem? closes i _ _ hg hl
  have hgetD : (rsi_series closes).getD i PFloat.inf = PFloat.sub (PFloat.num 100)
      (PFloat.div (PFloat.num 100) (PFloat.add (PFloat.num 1)
        (PFloat.div (PFloat.num g) (PFloat.num l)))) := by
    rw [List.getD_eq_getElem?_getD, hrsi]
    rfl
  rw [hgetD]
  rcases eq_or_lt_of_le hl0 with hl0' | hlpos
  · rcases eq_or_lt_of_le hg0 with hg0' | hgpos
    · rw [← hl0', ← hg0']
      norm_num [rsiOK, PFloat.div, PFloat.add, PFloat.sub, PFloat.neg]
    · rw [← hl0']
      have h1 : PFloat.div (PFloat.num g) (PFloat.num 0) = PFloat.inf := by
        simp [PFloat.div, hgpos.ne', hgpos]
      rw [h1]
      norm_num [rsiOK, PFloat.div, PFloat.add, PFloat.sub, PFloat.neg]
  · have h1 : PFloat.div (PFloat.num g) (PFloat.num l) = PFloat.num (g / l) := by
      simp [PFloat.div, hlpos.ne']
    have hq0 : 0 ≤ g / l := div_nonneg hg0 hl0
    have h2 : PFloat.add (PFloat.num 1) (PFloat.num (g / l)) = PFloat.num (1 + g / l) := rfl
    have hq1 : (1 : ℚ) + g / l ≠ 0 := by positivity
    have h3 : PFloat.div (PFloat.num 100) (PFloat.num (1 + g / l)) =
        PFloat.num (100 / (1 + g / l)) := by
      simp [PFloat.div, hq1]
    have h4 : PFloat.sub (PFloat.num 100) (PFloat.num (100 / (1 + g / l))) =
        PFloat.num (100 - 100 / (1 + g / l)) := by
      simp [PFloat.sub, PFloat.neg, PFloat.add, sub_eq_add_neg]
    rw [h1, h2, h3, h4]
    have hb1 : 100 / (1 + g / l) ≤ 100 := div_le_self (by norm_num) (by linarith)
    have hb2 : (0 : ℚ) ≤ 100 / (1 + g / l) := div_nonneg (by norm_num) (by linarith)
    simp only [rsiOK, Bool.and_eq_true, decide_eq_true_eq]
    constructor <;> linarith

/-- Witness for C3 amended: the step series at index 14 (where the RSI is
the number 100). -/
theorem C3_rsi_range_amended_witness :
    rsiOK ((rsi_series ((0 : ℚ) :: List.replicate 14 1)).getD 14 PFloat.inf) = true :=
  C3_rsi_range_amended ((0 : ℚ) :: List.replicate 14 1) 14 (by norm_num) (by simp)

end StockApp
